import Mathlib

/-!
Verification of the `chalk` lowering pass (`src/chalk-rust/src/lower/mod.rs`).

The surface AST (`ast` namespace) mirrors `chalk_rust_parse::ast` as it is
consumed by the lowering code: identifiers are modelled as plain strings (the
interner only provides equality/hashing), and `Identifier.str` is collapsed
into the string itself.  The IR (`ir` namespace) mirrors the `ir` module as it
is constructed by the lowering code; `ApplicationTy` and `QuantifiedTy` are
flattened into the fields of the corresponding `Ty` constructors, and
`ir::Parameter = ir::ParameterKind<ir::Ty, ir::Lifetime>` is modelled by the
dedicated inductive `ir.Parameter` with the same two constructors.

Rust `HashMap`s are modelled as association lists with unique keys; `insert`
replaces any existing binding of the key, `lookup` finds the (unique) binding,
and building a map from an iterator (`collect`) is a left fold of inserts, so
that a later pair with the same key overwrites an earlier one, exactly as for
`HashMap`.  Iteration order of a `HashMap` is unspecified in Rust, so any
canonical order of the association list is a faithful refinement.
-/

abbrev Identifier := String

namespace ir

/-- `ir::ItemId { index: usize }`. -/
structure ItemId where
  index : Nat
deriving DecidableEq, Repr

/-- `ir::ParameterKind<T>` (single payload instantiations, e.g. `T = Identifier` or `T = ()`). -/
inductive ParameterKind (T : Type) where
  | ty (x : T)
  | lifetime (x : T)
deriving DecidableEq, Repr

/-- `ir::TypeSort`. -/
inductive TypeSort where
  | struct
  | trait
deriving DecidableEq, Repr

/-- `ir::TypeKind { sort, name, parameter_kinds }`. -/
structure TypeKind where
  sort : TypeSort
  name : Identifier
  parameter_kinds : List (ParameterKind Identifier)
deriving DecidableEq, Repr

/-- `ir::TypeName` (only the `ItemId` variant is used by the lowering code). -/
inductive TypeName where
  | itemId (id : ItemId)
deriving DecidableEq, Repr

/-- `ir::Lifetime`. -/
inductive Lifetime where
  | var (depth : Nat)
deriving DecidableEq, Repr

mutual
/-- `ir::Ty`.  `Apply` carries the fields of `ir::ApplicationTy` and `ForAll`
the fields of `ir::QuantifiedTy` (the `Box` is immaterial). -/
inductive Ty where
  | var (depth : Nat)
  | apply (name : TypeName) (parameters : List Parameter)
  | projection (proj : ProjectionTy)
  | forAll (num_binders : Nat) (ty : Ty)

/-- `ir::Parameter = ir::ParameterKind<ir::Ty, ir::Lifetime>`. -/
inductive Parameter where
  | ty (t : Ty)
  | lifetime (l : Lifetime)

/-- `ir::ProjectionTy { associated_ty_id, parameters }`. -/
inductive ProjectionTy where
  | mk (associated_ty_id : ItemId) (parameters : List Parameter)
end

/-- `ir::TraitRef { trait_id, parameters }`. -/
structure TraitRef where
  trait_id : ItemId
  parameters : List Parameter

/-- `ir::Normalize { projection, ty }`. -/
structure Normalize where
  projection : ProjectionTy
  ty : Ty

/-- `ir::WhereClause`. -/
inductive WhereClause where
  | implemented (trait_ref : TraitRef)
  | normalize (n : Normalize)

/-- `ir::WhereClauseGoal` (the target of `.cast()` on a lowered where-clause,
plus the `WellFormed` variant used by goal lowering). -/
inductive WhereClauseGoal where
  | implemented (trait_ref : TraitRef)
  | normalize (n : Normalize)
  | wellFormed (ty : Ty)

/-- `cast::Cast` from `ir::WhereClause` into `ir::WhereClauseGoal`:
the variant-preserving embedding. -/
def castWhereClause : WhereClause → WhereClauseGoal
  | .implemented tr => .implemented tr
  | .normalize n => .normalize n

/-- `ir::QuantifierKind`. -/
inductive QuantifierKind where
  | forAll
  | exists_
deriving DecidableEq, Repr

/-- `ir::Goal` (boxes are immaterial). -/
inductive Goal where
  | quantified (qk : QuantifierKind) (pk : ParameterKind Unit) (g : Goal)
  | implies (wc : WhereClause) (g : Goal)
  | and (g1 g2 : Goal)
  | leaf (wc : WhereClauseGoal)

/-- `ir::TraitData { parameter_kinds, where_clauses }`. -/
structure TraitData where
  parameter_kinds : List (ParameterKind Identifier)
  where_clauses : List WhereClause

/-- `ir::AssocTyValue { name, value }`. -/
structure AssocTyValue where
  name : Identifier
  value : Ty

/-- `ir::ImplData`. -/
structure ImplData where
  trait_ref : TraitRef
  parameter_kinds : List (ParameterKind Identifier)
  assoc_ty_values : List AssocTyValue
  where_clauses : List WhereClause

/-- `ir::AssociatedTyData`. -/
structure AssociatedTyData where
  trait_id : ItemId
  name : Identifier
  parameter_kinds : List (ParameterKind Identifier)
  where_clauses : List WhereClause

end ir

namespace ast

/-- `ast::ParameterKind` (payload: the parameter's name). -/
inductive ParameterKind where
  | ty (n : Identifier)
  | lifetime (n : Identifier)
deriving DecidableEq, Repr

/-- `ast::Lifetime`. -/
inductive Lifetime where
  | id (name : Identifier)
deriving DecidableEq, Repr

mutual
/-- `ast::Ty`. -/
inductive Ty where
  | id (name : Identifier)
  | apply (name : Identifier) (args : List Parameter)
  | projection (proj : ProjectionTy)
  | forAll (lifetime_names : List Identifier) (ty : Ty)

/-- `ast::Parameter`. -/
inductive Parameter where
  | ty (t : Ty)
  | lifetime (l : Lifetime)

/-- `ast::ProjectionTy { trait_ref, name }`. -/
inductive ProjectionTy where
  | mk (trait_ref : TraitRef) (name : Identifier)

/-- `ast::TraitRef { trait_name, args }`. -/
inductive TraitRef where
  | mk (trait_name : Identifier) (args : List Parameter)
end

/-- `ast::WhereClause`. -/
inductive WhereClause where
  | implemented (trait_ref : TraitRef)
  | projectionEq (projection : ProjectionTy) (ty : Ty)

/-- `ast::StructDefn`. -/
structure StructDefn where
  name : Identifier
  parameter_kinds : List ParameterKind
  where_clauses : List WhereClause

/-- `ast::TraitDefn`. -/
structure TraitDefn where
  name : Identifier
  parameter_kinds : List ParameterKind
  where_clauses : List WhereClause
  assoc_ty_names : List Identifier

/-- `ast::AssocTyValue`. -/
structure AssocTyValue where
  name : Identifier
  value : Ty

/-- `ast::Impl`. -/
structure Impl where
  parameter_kinds : List ParameterKind
  trait_ref : TraitRef
  where_clauses : List WhereClause
  assoc_ty_values : List AssocTyValue

/-- `ast::Item`. -/
inductive Item where
  | structDefn (d : StructDefn)
  | traitDefn (d : TraitDefn)
  | impl (d : Impl)

/-- `ast::Program`. -/
structure Program where
  items : List Item

/-- `ast::Goal`. -/
inductive Goal where
  | forAll (pks : List ParameterKind) (g : Goal)
  | exists_ (pks : List ParameterKind) (g : Goal)
  | implies (wc : WhereClause) (g : Goal)
  | and (g1 g2 : Goal)
  | leaf (wc : WhereClause)
  | wellFormed (ty : Ty)

end ast

/-! ### Association-list model of `HashMap` -/

/-- First (unique) binding of key `k`, i.e. `HashMap::get`. -/
def lookupAL {K V : Type} [DecidableEq K] (m : List (K × V)) (k : K) : Option V :=
  (m.find? (fun p => p.1 = k)).map (·.2)

/-- `HashMap::insert`: replace any existing binding of `k` by `v`.
(Iteration order of a `HashMap` is unspecified, so moving the binding to the
end of the list is a faithful refinement.) -/
def insertAL {K V : Type} [DecidableEq K] (m : List (K × V)) (k : K) (v : V) : List (K × V) :=
  m.filter (fun p => p.1 ≠ k) ++ [(k, v)]

/-- Building a `HashMap` from an iterator of pairs (`collect`): a left fold of
inserts, so a later pair with a given key overwrites an earlier one. -/
def collectAL {K V : Type} [DecidableEq K] (l : List (K × V)) : List (K × V) :=
  l.foldl (fun m p => insertAL m p.1 p.2) []

/-! ### The lowering environment (`Env`) -/

/-- `type TypeIds = HashMap<ir::Identifier, ir::ItemId>`. -/
abbrev TypeIds := List (Identifier × ir.ItemId)
/-- `type TypeKinds = HashMap<ir::ItemId, ir::TypeKind>`. -/
abbrev TypeKinds := List (ir.ItemId × ir.TypeKind)
/-- `type AssociatedTyIds = HashMap<(ir::ItemId, ir::Identifier), ir::ItemId>`. -/
abbrev AssociatedTyIds := List ((ir.ItemId × Identifier) × ir.ItemId)
/-- `type ParameterMap = HashMap<ir::ParameterKind<ir::Identifier>, usize>`. -/
abbrev ParameterMap := List (ir.ParameterKind Identifier × Nat)

/-- `struct Env<'k>` (the three global maps are borrowed; here they are held by value). -/
structure Env where
  type_ids : TypeIds
  type_kinds : TypeKinds
  associated_ty_ids : AssociatedTyIds
  parameter_map : ParameterMap

/-- `enum NameLookup`. -/
inductive NameLookup where
  | type (id : ir.ItemId)
  | parameter (k : Nat)
deriving DecidableEq, Repr

/-- `enum LifetimeLookup`. -/
inductive LifetimeLookup where
  | parameter (k : Nat)
deriving DecidableEq, Repr

/-- `const SELF: &str = "Self"`. -/
def SELF : Identifier := "Self"

/-- The error kinds raised by the lowering code (`errors::ErrorKind` plus the
two ad hoc string errors).  The two `panic` variants model the Rust indexing
panics `self.type_kinds[&id]` and `associated_ty_ids[&(item_id, name.str)]`,
which cannot fire on the maps actually built by `lower()`. -/
inductive LowerError where
  | invalidTypeName (name : Identifier)
  | notTrait (name : Identifier)
  | incorrectNumberOfTypeParameters (name : Identifier) (expected actual : Nat)
  | cannotApplyTypeParameter (name : Identifier)
  | invalidLifetimeName (name : Identifier)
  | noAssociatedType (name : Identifier)
  | panicMissingTypeKind (id : ir.ItemId)
  | panicMissingAssocTyId (id : ir.ItemId) (name : Identifier)
deriving DecidableEq, Repr

/-- `errors::Result<T>`. -/
abbrev Result (α : Type) := Except LowerError α

/-- `Env::lookup`: type-parameter lookup first, then global-type lookup. -/
def Env.lookup (env : Env) (name : Identifier) : Result NameLookup :=
  match lookupAL env.parameter_map (ir.ParameterKind.ty name) with
  | some k => .ok (.parameter k)
  | none =>
    match lookupAL env.type_ids name with
    | some id => .ok (.type id)
    | none => .error (.invalidTypeName name)

/-- `Env::lookup_lifetime`: lifetime-parameter lookup only. -/
def Env.lookup_lifetime (env : Env) (name : Identifier) : Result LifetimeLookup :=
  match lookupAL env.parameter_map (ir.ParameterKind.lifetime name) with
  | some k => .ok (.parameter k)
  | none => .error (.invalidLifetimeName name)

/-- `Env::type_kind` is `&self.type_kinds[&id]`, which panics on a missing id;
the `Option` is inspected at each call site, `none` becoming the panic error. -/
def Env.type_kind (env : Env) (id : ir.ItemId) : Option ir.TypeKind :=
  lookupAL env.type_kinds id

/-- `binders.into_iter().enumerate().map(|(i, k)| (k, i))`: pair each binder
with its position, counting from `i`. -/
def enumPairs (i : Nat) : List (ir.ParameterKind Identifier) → ParameterMap
  | [] => []
  | k :: ks => (k, i) :: enumPairs (i + 1) ks

/-- `Env::introduce`: shift every existing parameter's index up by the number
of new binders and chain on the new binders, numbered in iteration order,
collecting the result into a fresh map. -/
def Env.introduce (env : Env) (binders : List (ir.ParameterKind Identifier)) : Env :=
  { env with
    parameter_map :=
      collectAL (env.parameter_map.map (fun p => (p.1, p.2 + binders.length)) ++
        enumPairs 0 binders) }

/-! ### Parameter lowering and parameter maps -/

/-- `LowerParameterKind for ast::ParameterKind`. -/
def lowerPK : ast.ParameterKind → ir.ParameterKind Identifier
  | .ty n => .ty n
  | .lifetime n => .lifetime n

/-- `LowerParameterMap::all_parameters`: declared parameters (lowered), then
any synthetic parameter (the `chain` of an `Option`). -/
def allParamsFrom (declared : List ast.ParameterKind)
    (synthetic : Option (ir.ParameterKind Identifier)) : List (ir.ParameterKind Identifier) :=
  declared.map lowerPK ++ synthetic.toList

/-- `LowerParameterMap::synthetic_parameters` for `TraitDefn`: `Some(Ty(intern(SELF)))`. -/
def ast.TraitDefn.syntheticParameters (_d : ast.TraitDefn) : Option (ir.ParameterKind Identifier) :=
  some (.ty SELF)

/-- `LowerParameterMap::synthetic_parameters` for `Item`. -/
def ast.Item.syntheticParameters : ast.Item → Option (ir.ParameterKind Identifier)
  | .traitDefn d => d.syntheticParameters
  | .structDefn _ => none
  | .impl _ => none

/-- `LowerParameterMap::declared_parameters` for `Item`. -/
def ast.Item.declaredParameters : ast.Item → List ast.ParameterKind
  | .traitDefn d => d.parameter_kinds
  | .structDefn d => d.parameter_kinds
  | .impl d => d.parameter_kinds

/-- `all_parameters` for `TraitDefn`. -/
def ast.TraitDefn.allParameters (d : ast.TraitDefn) : List (ir.ParameterKind Identifier) :=
  allParamsFrom d.parameter_kinds d.syntheticParameters

/-- `all_parameters` for `Item`. -/
def ast.Item.allParameters (item : ast.Item) : List (ir.ParameterKind Identifier) :=
  allParamsFrom item.declaredParameters item.syntheticParameters

/-- `LowerParameterMap::parameter_map`: enumerate `all_parameters` and collect
`(parameter, index)` into a map. -/
def ast.Item.parameterMap (item : ast.Item) : ParameterMap :=
  collectAL (enumPairs 0 item.allParameters)

/-! ### Type / trait-ref / where-clause lowering -/

/-- `LowerLifetime for ast::Lifetime`. -/
def lowerLifetime (env : Env) : ast.Lifetime → Result ir.Lifetime
  | .id name =>
    match env.lookup_lifetime name with
    | .ok (.parameter d) => .ok (.var d)
    | .error e => .error e

mutual

/-- `LowerTy for ast::Ty`. -/
def lowerTy (env : Env) (t : ast.Ty) : Result ir.Ty :=
  match t with
  | .id name =>
    match env.lookup name with
    | .error e => .error e
    | .ok (.type id) =>
      match env.type_kind id with
      | none => .error (.panicMissingTypeKind id)
      | some k =>
        if k.parameter_kinds.length > 0 then
          .error (.incorrectNumberOfTypeParameters name k.parameter_kinds.length 0)
        else
          .ok (.apply (.itemId id) [])
    | .ok (.parameter d) => .ok (.var d)
  | .apply name args =>
    match env.lookup name with
    | .error e => .error e
    | .ok (.parameter _) => .error (.cannotApplyTypeParameter name)
    | .ok (.type id) =>
      match env.type_kind id with
      | none => .error (.panicMissingTypeKind id)
      | some k =>
        if k.parameter_kinds.length ≠ args.length then
          .error (.incorrectNumberOfTypeParameters name k.parameter_kinds.length args.length)
        else
          match lowerArgs env args with
          | .error e => .error e
          | .ok parameters => .ok (.apply (.itemId id) parameters)
  | .projection proj =>
    match lowerProjectionTy env proj with
    | .error e => .error e
    | .ok p => .ok (.projection p)
  | .forAll lifetime_names ty =>
    let quantified_env := env.introduce (lifetime_names.map ir.ParameterKind.lifetime)
    match lowerTy quantified_env ty with
    | .error e => .error e
    | .ok t => .ok (.forAll lifetime_names.length t)

/-- `LowerParameter for ast::Parameter`. -/
def lowerParameter (env : Env) (p : ast.Parameter) : Result ir.Parameter :=
  match p with
  | .ty t =>
    match lowerTy env t with
    | .error e => .error e
    | .ok t => .ok (.ty t)
  | .lifetime l =>
    match lowerLifetime env l with
    | .error e => .error e
    | .ok l => .ok (.lifetime l)

/-- `args.iter().map(|a| Ok(a.lower(env)?)).collect::<Result<Vec<_>>>()`:
left-to-right, fail-fast. -/
def lowerArgs (env : Env) (args : List ast.Parameter) : Result (List ir.Parameter) :=
  match args with
  | [] => .ok []
  | a :: rest =>
    match lowerParameter env a with
    | .error e => .error e
    | .ok x =>
      match lowerArgs env rest with
      | .error e => .error e
      | .ok xs => .ok (x :: xs)

/-- `LowerTraitRef for ast::TraitRef`. -/
def lowerTraitRef (env : Env) (tr : ast.TraitRef) : Result ir.TraitRef :=
  match tr with
  | .mk trait_name args =>
    match env.lookup trait_name with
    | .error e => .error e
    | .ok (.parameter _) => .error (.notTrait trait_name)
    | .ok (.type id) =>
      match env.type_kind id with
      | none => .error (.panicMissingTypeKind id)
      | some k =>
        if k.sort ≠ ir.TypeSort.trait then
          .error (.notTrait trait_name)
        else
          match lowerArgs env args with
          | .error e => .error e
          | .ok parameters => .ok ⟨id, parameters⟩

/-- `LowerProjectionTy for ast::ProjectionTy`. -/
def lowerProjectionTy (env : Env) (p : ast.ProjectionTy) : Result ir.ProjectionTy :=
  match p with
  | .mk trait_ref name =>
    match lowerTraitRef env trait_ref with
    | .error e => .error e
    | .ok ⟨trait_id, parameters⟩ =>
      match lookupAL env.associated_ty_ids (trait_id, name) with
      | some id => .ok (.mk id parameters)
      | none => .error (.noAssociatedType name)

end

/-- `LowerWhereClause for ast::WhereClause`. -/
def lowerWhereClause (env : Env) : ast.WhereClause → Result ir.WhereClause
  | .implemented trait_ref =>
    match lowerTraitRef env trait_ref with
    | .error e => .error e
    | .ok tr => .ok (.implemented tr)
  | .projectionEq projection ty =>
    match lowerProjectionTy env projection with
    | .error e => .error e
    | .ok p =>
      match lowerTy env ty with
      | .error e => .error e
      | .ok t => .ok (.normalize ⟨p, t⟩)

/-- `LowerWhereClauseVec for [ast::WhereClause]`. -/
def lowerWhereClauses (env : Env) : List ast.WhereClause → Result (List ir.WhereClause)
  | [] => .ok []
  | wc :: rest =>
    match lowerWhereClause env wc with
    | .error e => .error e
    | .ok w =>
      match lowerWhereClauses env rest with
      | .error e => .error e
      | .ok ws => .ok (w :: ws)

/-! ### Item lowering -/

/-- `LowerTypeKind for ast::StructDefn`. -/
def lowerTypeKindStruct (d : ast.StructDefn) : Result ir.TypeKind :=
  .ok ⟨.struct, d.name, d.parameter_kinds.map lowerPK⟩

/-- `LowerTypeKind for ast::TraitDefn` (for the purposes of the type, `Self` is ignored). -/
def lowerTypeKindTrait (d : ast.TraitDefn) : Result ir.TypeKind :=
  .ok ⟨.trait, d.name, d.parameter_kinds.map lowerPK⟩

/-- `LowerTrait for ast::TraitDefn`. -/
def lowerTrait (env : Env) (d : ast.TraitDefn) : Result ir.TraitData :=
  match lowerWhereClauses env d.where_clauses with
  | .error e => .error e
  | .ok wcs => .ok ⟨d.allParameters, wcs⟩

/-- `LowerAssocTyValue for ast::AssocTyValue`. -/
def lowerAssocTyValue (env : Env) (v : ast.AssocTyValue) : Result ir.AssocTyValue :=
  match lowerTy env v.value with
  | .error e => .error e
  | .ok t => .ok ⟨v.name, t⟩

/-- `assoc_ty_values.iter().map(|v| v.lower(env)).collect()`. -/
def lowerAssocTyValues (env : Env) : List ast.AssocTyValue → Result (List ir.AssocTyValue)
  | [] => .ok []
  | v :: rest =>
    match lowerAssocTyValue env v with
    | .error e => .error e
    | .ok x =>
      match lowerAssocTyValues env rest with
      | .error e => .error e
      | .ok xs => .ok (x :: xs)

/-- `LowerImpl for ast::Impl` (field order fixes the fail-fast order:
trait-ref, then associated-type values, then where-clauses). -/
def lowerImpl (env : Env) (d : ast.Impl) : Result ir.ImplData :=
  match lowerTraitRef env d.trait_ref with
  | .error e => .error e
  | .ok tr =>
    match lowerAssocTyValues env d.assoc_ty_values with
    | .error e => .error e
    | .ok vs =>
      match lowerWhereClauses env d.where_clauses with
      | .error e => .error e
      | .ok wcs => .ok ⟨tr, d.parameter_kinds.map lowerPK, vs, wcs⟩

/-! ### `LowerProgram::lower` -/

/-- The associated-type id allocations for the names of one trait: each call
of `next_item_id()` yields the current counter and increments it. -/
def assocNamePairs (item_id : ir.ItemId) (names : List Identifier) (counter : Nat) :
    List ((ir.ItemId × Identifier) × ir.ItemId) :=
  match names with
  | [] => []
  | nm :: ns => ((item_id, nm), ⟨counter⟩) :: assocNamePairs item_id ns (counter + 1)

/-- The sequence of `((trait item id, associated-type name), allocated id)`
pairs produced by the second allocation loop, in allocation order; the
`associated_ty_ids` map is the `collect` of this sequence. -/
def assocAllocPairs : List (ast.Item × ir.ItemId) → Nat →
    List ((ir.ItemId × Identifier) × ir.ItemId)
  | [], _ => []
  | (item, item_id) :: rest, counter =>
    match item with
    | .traitDefn d =>
      assocNamePairs item_id d.assoc_ty_names counter ++
        assocAllocPairs rest (counter + d.assoc_ty_names.length)
    | _ => assocAllocPairs rest counter

/-- The loop populating `type_ids` and `type_kinds` (impls contribute nothing). -/
def typeKindsLoop : List (ast.Item × ir.ItemId) → TypeIds → TypeKinds →
    Result (TypeIds × TypeKinds)
  | [], tids, tks => .ok (tids, tks)
  | (item, item_id) :: rest, tids, tks =>
    match item with
    | .impl _ => typeKindsLoop rest tids tks
    | .structDefn d =>
      match lowerTypeKindStruct d with
      | .error e => .error e
      | .ok k => typeKindsLoop rest (insertAL tids k.name item_id) (insertAL tks item_id k)
    | .traitDefn d =>
      match lowerTypeKindTrait d with
      | .error e => .error e
      | .ok k => typeKindsLoop rest (insertAL tids k.name item_id) (insertAL tks item_id k)

/-- `trait_data.parameter_kinds.iter().enumerate().map(...)`: parameter `i`
becomes the type or lifetime variable with index `i`, according to its kind. -/
def varsFor (i : Nat) : List (ir.ParameterKind Identifier) → List ir.Parameter
  | [] => []
  | .ty _ :: ks => .ty (ir.Ty.var i) :: varsFor (i + 1) ks
  | .lifetime _ :: ks => .lifetime (ir.Lifetime.var i) :: varsFor (i + 1) ks

/-- The per-trait inner loop of `LowerProgram::lower` that synthesizes one
`AssociatedTyData` per declared associated-type name. -/
def lowerAssocTys (item_id : ir.ItemId) (tdata : ir.TraitData)
    (atids : AssociatedTyIds) (names : List Identifier)
    (ad : List (ir.ItemId × ir.AssociatedTyData)) :
    Result (List (ir.ItemId × ir.AssociatedTyData)) :=
  match names with
  | [] => .ok ad
  | name :: rest =>
    match lookupAL atids (item_id, name) with
    | none => .error (.panicMissingAssocTyId item_id name)
    | some associated_ty_id =>
      let trait_ref : ir.TraitRef := ⟨item_id, varsFor 0 tdata.parameter_kinds⟩
      lowerAssocTys item_id tdata atids rest
        (insertAL ad associated_ty_id
          ⟨item_id, name, tdata.parameter_kinds, [.implemented trait_ref]⟩)

/-- The third loop of `LowerProgram::lower`: per-item lowering into
`trait_data`, `impl_data` and `associated_ty_data` (the struct arm only has
the commented-out where-clause lowering, i.e. it contributes nothing). -/
def lowerItemsLoop (tids : TypeIds) (tks : TypeKinds) (atids : AssociatedTyIds) :
    List (ast.Item × ir.ItemId) →
    List (ir.ItemId × ir.TraitData) → List (ir.ItemId × ir.ImplData) →
    List (ir.ItemId × ir.AssociatedTyData) →
    Result (List (ir.ItemId × ir.TraitData) × List (ir.ItemId × ir.ImplData) ×
      List (ir.ItemId × ir.AssociatedTyData))
  | [], td, im, ad => .ok (td, im, ad)
  | (item, item_id) :: rest, td, im, ad =>
    let env : Env := ⟨tids, tks, atids, item.parameterMap⟩
    match item with
    | .structDefn _ => lowerItemsLoop tids tks atids rest td im ad
    | .traitDefn d =>
      match lowerTrait env d with
      | .error e => .error e
      | .ok tdata =>
        match lowerAssocTys item_id tdata atids d.assoc_ty_names ad with
        | .error e => .error e
        | .ok ad' => lowerItemsLoop tids tks atids rest (insertAL td item_id tdata) im ad'
    | .impl d =>
      match lowerImpl env d with
      | .error e => .error e
      | .ok idata => lowerItemsLoop tids tks atids rest td (insertAL im item_id idata) ad

/-- The aggregate output `ir::Program`. -/
structure ir.Program where
  type_ids : TypeIds
  type_kinds : TypeKinds
  trait_data : List (ir.ItemId × ir.TraitData)
  impl_data : List (ir.ItemId × ir.ImplData)
  associated_ty_data : List (ir.ItemId × ir.AssociatedTyData)

/-- `LowerProgram::lower for ast::Program`: ids `0..items.len()` for the
top-level items by position, then one id per associated-type name (continuing
the same counter), then the type-kind loop, then the per-item lowering loop. -/
def lowerProgram (prog : ast.Program) : Result ir.Program :=
  let n := prog.items.length
  let item_ids := (List.range n).map ir.ItemId.mk
  let pairs := prog.items.zip item_ids
  let associated_ty_ids := collectAL (assocAllocPairs pairs n)
  match typeKindsLoop pairs [] [] with
  | .error e => .error e
  | .ok (type_ids, type_kinds) =>
    match lowerItemsLoop type_ids type_kinds associated_ty_ids pairs [] [] [] with
    | .error e => .error e
    | .ok (trait_data, impl_data, associated_ty_data) =>
      .ok ⟨type_ids, type_kinds, trait_data, impl_data, associated_ty_data⟩

/-! ### Goal lowering -/

/-- `ParameterKind` erasure in `lower_quantified`: the lowered `Quantified`
node records only the kind of the bound parameter. -/
def erasePK : ast.ParameterKind → ir.ParameterKind Unit
  | .ty _ => .ty ()
  | .lifetime _ => .lifetime ()

mutual

/-- `LowerGoal<Env> for ast::Goal`. -/
def lowerGoal (env : Env) (g : ast.Goal) : Result ir.Goal :=
  match g with
  | .forAll ids g => lowerQuantified env .forAll ids g
  | .exists_ ids g => lowerQuantified env .exists_ ids g
  | .implies wc g =>
    match lowerWhereClause env wc with
    | .error e => .error e
    | .ok w =>
      match lowerGoal env g with
      | .error e => .error e
      | .ok sub => .ok (.implies w sub)
  | .and g1 g2 =>
    match lowerGoal env g1 with
    | .error e => .error e
    | .ok s1 =>
      match lowerGoal env g2 with
      | .error e => .error e
      | .ok s2 => .ok (.and s1 s2)
  | .leaf wc =>
    match lowerWhereClause env wc with
    | .error e => .error e
    | .ok w => .ok (.leaf (ir.castWhereClause w))
  | .wellFormed ty =>
    match lowerTy env ty with
    | .error e => .error e
    | .ok t => .ok (.leaf (.wellFormed t))
termination_by (sizeOf g, 0)

/-- `LowerQuantifiedGoal::lower_quantified`: peel one parameter at a time,
introducing it via `introduce`, and wrap the recursive result in a
single-parameter `Quantified` node; an empty list lowers the goal directly. -/
def lowerQuantified (env : Env) (qk : ir.QuantifierKind)
    (parameter_kinds : List ast.ParameterKind) (g : ast.Goal) : Result ir.Goal :=
  match parameter_kinds with
  | [] => lowerGoal env g
  | pk :: rest =>
    let quantified_env := env.introduce [lowerPK pk]
    match lowerQuantified quantified_env qk rest g with
    | .error e => .error e
    | .ok subgoal => .ok (.quantified qk (erasePK pk) subgoal)
termination_by (sizeOf g, parameter_kinds.length + 1)

end


/-! ### Helper definitions used to state the claims -/

/-- Iterated single-parameter `introduce`, as performed by the recursive
peeling in `lower_quantified`: one parameter at a time, left to right. -/
def introduceEach (env : Env) (pks : List ast.ParameterKind) : Env :=
  pks.foldl (fun e pk => e.introduce [lowerPK pk]) env

/-- The right-nested chain of single-parameter `Quantified` nodes over `sub`,
outermost node first, as described by the specification. -/
def wrapChain (qk : ir.QuantifierKind) (pks : List ast.ParameterKind) (sub : ir.Goal) : ir.Goal :=
  pks.foldr (fun pk acc => .quantified qk (erasePK pk) acc) sub

/-- Number of associated-type names declared by an item (0 for non-traits). -/
def assocCount : ast.Item → Nat
  | .traitDefn d => d.assoc_ty_names.length
  | .structDefn _ => 0
  | .impl _ => 0

/-- Total number of associated-type declarations across all items. -/
def totalAssoc (items : List ast.Item) : Nat :=
  (items.map assocCount).sum

/-- Every `ItemId` handed out by `next_item_id()` during `LowerProgram::lower`,
in allocation order: the per-item ids first (one per top-level item, by
position), then the associated-type ids (the values of `assocAllocPairs`,
which records the second allocation loop in iteration order). -/
def allocatedIds (prog : ast.Program) : List ir.ItemId :=
  (List.range prog.items.length).map ir.ItemId.mk ++
    (assocAllocPairs (prog.items.zip ((List.range prog.items.length).map ir.ItemId.mk))
      prog.items.length).map Prod.snd

/-- Two items are equal except possibly for the where-clauses of a struct. -/
def structWcEquiv (a b : ast.Item) : Prop :=
  a = b ∨ ∃ name pks w1 w2,
    a = ast.Item.structDefn ⟨name, pks, w1⟩ ∧ b = ast.Item.structDefn ⟨name, pks, w2⟩

/-! ### Concrete inputs for witnesses and counterexamples -/

/-- `trait Foo<T> { }` followed by `impl Foo { }`: the impl supplies zero
parameters to a trait that declares one (plus `Self`). -/
def c1prog : ast.Program :=
  ⟨[.traitDefn ⟨"Foo", [.ty "T"], [], []⟩, .impl ⟨[], .mk "Foo" [], [], []⟩]⟩

/-- The program `c1prog` lowers to, including a `TraitRef` whose parameter
count (0) differs from the trait's declared parameter count (1). -/
def c1expected : ir.Program :=
  ⟨[("Foo", ⟨0⟩)], [(⟨0⟩, ⟨.trait, "Foo", [.ty "T"]⟩)],
    [(⟨0⟩, ⟨[.ty "T", .ty SELF], []⟩)], [(⟨1⟩, ⟨⟨⟨0⟩, []⟩, [], [], []⟩)], []⟩

/-- An environment resolving `Foo` to a trait with one declared parameter. -/
def c1env : Env :=
  ⟨[("Foo", ⟨0⟩)], [(⟨0⟩, ⟨.trait, "Foo", [.ty "T"]⟩)], [], []⟩

/-- `trait Bar<T> { type Assoc; }`. -/
def c2prog : ast.Program := ⟨[.traitDefn ⟨"Bar", [.ty "T"], [], ["Assoc"]⟩]⟩

/-- The program `c2prog` lowers to. -/
def c2expected : ir.Program :=
  ⟨[("Bar", ⟨0⟩)], [(⟨0⟩, ⟨.trait, "Bar", [.ty "T"]⟩)],
    [(⟨0⟩, ⟨[.ty "T", .ty SELF], []⟩)], [],
    [(⟨1⟩, ⟨⟨0⟩, "Assoc", [.ty "T", .ty SELF],
      [.implemented ⟨⟨0⟩, [.ty (.var 0), .ty (.var 1)]⟩]⟩)]⟩

/-- An environment binding the type parameter `T` at index 0. -/
def c3env : Env := ⟨[], [], [], [(.ty "T", 0)]⟩

/-- An environment binding `P` at index 0 and the lifetime `q` at index 1. -/
def c3wenv : Env := ⟨[], [], [], [(.ty "P", 0), (.lifetime "q", 1)]⟩

/-- An environment with no bound parameters. -/
def c4env : Env := ⟨[], [], [], []⟩

/-- `trait Foo<T> { }` as a bare trait definition. -/
def c4defn : ast.TraitDefn := ⟨"Foo", [.ty "T"], [], []⟩

/-- An environment resolving `Foo` to a struct with one declared parameter. -/
def c7env : Env :=
  ⟨[("Foo", ⟨0⟩)], [(⟨0⟩, ⟨.struct, "Foo", [.ty "T"]⟩)], [], []⟩

/-- A zero-parameter struct `B`, usable as an argument in applications. -/
def c7envB : Env :=
  ⟨[("Foo", ⟨0⟩), ("B", ⟨1⟩)],
    [(⟨0⟩, ⟨.struct, "Foo", [.ty "T"]⟩), (⟨1⟩, ⟨.struct, "B", []⟩)], [], []⟩

/-- A bound type parameter `T` (index 7) shadowing a global also named `T`. -/
def c8envP : Env := ⟨[("T", ⟨3⟩)], [], [], [(.ty "T", 7)]⟩

/-- A global `S` and no bound parameters. -/
def c8envG : Env := ⟨[("S", ⟨4⟩)], [], [], []⟩

/-- An empty environment: no parameters, no globals. -/
def c8envN : Env := ⟨[], [], [], []⟩

/-- A bound type parameter `T` (index 2) shadowing a global struct `T`. -/
def c9env : Env :=
  ⟨[("T", ⟨5⟩)], [(⟨5⟩, ⟨.struct, "T", []⟩)], [], [(.ty "T", 2)]⟩

/-- `struct S { }` with no where-clauses. -/
def c10progA : ast.Program := ⟨[.structDefn ⟨"S", [], []⟩]⟩

/-- `struct S where Missing: Missing { }`: the same struct but with a
where-clause naming an unresolvable trait. -/
def c10progB : ast.Program :=
  ⟨[.structDefn ⟨"S", [], [.implemented (.mk "Missing" [])]⟩]⟩

/-! ### Lemmas about the association-list map model -/

/-- `Option` alternative with the left operand preferred (strict in both). -/
def optOr {α : Type} (a b : Option α) : Option α :=
  match a with
  | some x => some x
  | none => b

theorem optOr_none_left {α : Type} (b : Option α) : optOr none b = b := rfl

theorem optOr_none_right {α : Type} (a : Option α) : optOr a none = a := by
  cases a <;> rfl

theorem lookupAL_nil {K V : Type} [DecidableEq K] (k : K) :
    lookupAL ([] : List (K × V)) k = none := rfl

theorem lookupAL_cons {K V : Type} [DecidableEq K] (p : K × V) (l : List (K × V)) (k : K) :
    lookupAL (p :: l) k = if p.1 = k then some p.2 else lookupAL l k := by
  simp only [lookupAL, List.find?]
  by_cases h : p.1 = k <;> simp [h]

theorem lookupAL_append {K V : Type} [DecidableEq K] (a b : List (K × V)) (k : K) :
    lookupAL (a ++ b) k = optOr (lookupAL a k) (lookupAL b k) := by
  induction a with
  | nil => simp [lookupAL_nil, optOr_none_left]
  | cons p t ih =>
    rw [List.cons_append, lookupAL_cons, lookupAL_cons]
    by_cases h : p.1 = k <;> simp [h, optOr, ih]

theorem lookupAL_filter_ne_self {K V : Type} [DecidableEq K] (m : List (K × V)) (k : K) :
    lookupAL (m.filter (fun p => p.1 ≠ k)) k = none := by
  induction m with
  | nil => rfl
  | cons p t ih =>
    rw [List.filter_cons]
    by_cases h : p.1 = k
    · rw [if_neg (by simp [h])]
      exact ih
    · rw [if_pos (by simp [h]), lookupAL_cons, if_neg h]
      exact ih

theorem lookupAL_filter_ne_other {K V : Type} [DecidableEq K] (m : List (K × V)) (k k' : K)
    (hk : k' ≠ k) : lookupAL (m.filter (fun p => p.1 ≠ k)) k' = lookupAL m k' := by
  induction m with
  | nil => rfl
  | cons p t ih =>
    rw [List.filter_cons]
    by_cases h : p.1 = k
    · have hp : ¬ p.1 = k' := fun e => hk (e ▸ h)
      rw [if_neg (by simp [h]), ih, lookupAL_cons, if_neg hp]
    · rw [if_pos (by simp [h]), lookupAL_cons, lookupAL_cons]
      by_cases h' : p.1 = k'
      · rw [if_pos h', if_pos h']
      · rw [if_neg h', if_neg h']
        exact ih

theorem lookupAL_insertAL {K V : Type} [DecidableEq K] (m : List (K × V)) (k k' : K) (v : V) :
    lookupAL (insertAL m k v) k' = if k' = k then some v else lookupAL m k' := by
  rw [insertAL, lookupAL_append]
  by_cases h : k' = k
  · subst h
    rw [lookupAL_filter_ne_self, optOr_none_left, lookupAL_cons, if_pos rfl, if_pos rfl]
  · rw [lookupAL_filter_ne_other m k k' h, if_neg h]
    have h2 : lookupAL [(k, v)] k' = none := by
      rw [lookupAL_cons, if_neg (fun e => h (Eq.symm e)), lookupAL_nil]
    rw [h2, optOr_none_right]

theorem lookupAL_foldl_insert {K V : Type} [DecidableEq K] (l : List (K × V))
    (m : List (K × V)) (k : K) :
    lookupAL (List.foldl (fun m p => insertAL m p.1 p.2) m l) k
      = optOr (lookupAL l.reverse k) (lookupAL m k) := by
  induction l generalizing m with
  | nil => simp [lookupAL_nil, optOr_none_left]
  | cons p t ih =>
    rw [List.foldl_cons, ih, List.reverse_cons, lookupAL_append, lookupAL_insertAL]
    have hsingle : lookupAL [p] k = if p.1 = k then some p.2 else none := by
      rw [lookupAL_cons, lookupAL_nil]
    rw [hsingle]
    cases lookupAL t.reverse k with
    | some v => rfl
    | none =>
      rw [optOr_none_left, optOr_none_left]
      by_cases h : k = p.1
      · rw [if_pos h, if_pos (Eq.symm h)]
        rfl
      · rw [if_neg h, if_neg (fun e => h (Eq.symm e)), optOr_none_left]

theorem lookupAL_collectAL {K V : Type} [DecidableEq K] (l : List (K × V)) (k : K) :
    lookupAL (collectAL l) k = lookupAL l.reverse k := by
  rw [collectAL, lookupAL_foldl_insert, lookupAL_nil, optOr_none_right]

theorem lookupAL_eq_none_iff {K V : Type} [DecidableEq K] (l : List (K × V)) (k : K) :
    lookupAL l k = none ↔ k ∉ l.map Prod.fst := by
  induction l with
  | nil => simp [lookupAL_nil]
  | cons p t ih =>
    rw [lookupAL_cons, List.map_cons, List.mem_cons]
    by_cases h : p.1 = k
    · simp [h]
    · rw [if_neg h, ih]
      constructor
      · intro ht hor
        cases hor with
        | inl e => exact h (Eq.symm e)
        | inr hm => exact ht hm
      · intro hn hm
        exact hn (Or.inr hm)

theorem lookupAL_map_shift {K : Type} [DecidableEq K] (m : List (K × Nat)) (n : Nat) (k : K) :
    lookupAL (m.map (fun p => (p.1, p.2 + n))) k = (lookupAL m k).map (· + n) := by
  induction m with
  | nil => rfl
  | cons p t ih =>
    rw [List.map_cons, lookupAL_cons, lookupAL_cons]
    by_cases h : p.1 = k <;> simp [h, ih]

theorem lookupAL_reverse_of_nodup {K V : Type} [DecidableEq K] (l : List (K × V)) (k : K)
    (h : (l.map Prod.fst).Nodup) : lookupAL l.reverse k = lookupAL l k := by
  induction l with
  | nil => rfl
  | cons p t ih =>
    rw [List.map_cons, List.nodup_cons] at h
    have hsingle : lookupAL [p] k = if p.1 = k then some p.2 else none := by
      rw [lookupAL_cons, lookupAL_nil]
    rw [List.reverse_cons, lookupAL_append, hsingle, lookupAL_cons]
    by_cases hk : p.1 = k
    · have ht : lookupAL t k = none := by
        rw [lookupAL_eq_none_iff]
        rw [hk] at h
        exact h.1
      have htr : lookupAL t.reverse k = none := by
        rw [lookupAL_eq_none_iff, List.map_reverse, List.mem_reverse,
          ← lookupAL_eq_none_iff]
        exact ht
      rw [if_pos hk, if_pos hk, htr, optOr_none_left]
    · rw [if_neg hk, if_neg hk, optOr_none_right, ih h.2]

theorem enumPairs_map_fst (i : Nat) (ks : List (ir.ParameterKind Identifier)) :
    (enumPairs i ks).map Prod.fst = ks := by
  induction ks generalizing i with
  | nil => rfl
  | cons k t ih => simp [enumPairs, ih]

theorem lookupAL_enumPairs_get : ∀ (ks : List (ir.ParameterKind Identifier)) (i j : Nat)
    (_h : ks.Nodup) (hj : j < ks.length),
    lookupAL (enumPairs i ks) (ks.get ⟨j, hj⟩) = some (i + j)
  | [], _, j, _, hj => absurd hj (Nat.not_lt_zero j)
  | k :: t, i, 0, _, _ => by
    show lookupAL ((k, i) :: enumPairs (i + 1) t) k = some (i + 0)
    rw [lookupAL_cons, if_pos rfl]
    rfl
  | k :: t, i, j + 1, h, hj => by
    rw [List.nodup_cons] at h
    have hj' : j < t.length := Nat.lt_of_succ_lt_succ hj
    have hget : (k :: t).get ⟨j + 1, hj⟩ = t.get ⟨j, hj'⟩ := rfl
    have hne : ¬ k = t.get ⟨j, hj'⟩ := by
      intro e
      exact h.1 (by rw [e]; exact t.get_mem _ _)
    rw [hget, enumPairs, lookupAL_cons, if_neg hne,
      lookupAL_enumPairs_get t (i + 1) j h.2 hj']
    congr 1
    omega

theorem lookupAL_enumPairs_not_mem (ks : List (ir.ParameterKind Identifier)) (i : Nat)
    (k : ir.ParameterKind Identifier) (h : k ∉ ks) :
    lookupAL (enumPairs i ks) k = none := by
  rw [lookupAL_eq_none_iff, enumPairs_map_fst]
  exact h

/-- The value found for a key after `introduce`: the new binders (the last
occurrence of a duplicated binder winning) take priority, otherwise the old
binding (the last occurrence in list order) shifted up by the binder count. -/
theorem Env.introduce_lookup (env : Env) (binders : List (ir.ParameterKind Identifier))
    (k : ir.ParameterKind Identifier) :
    lookupAL (env.introduce binders).parameter_map k =
      optOr (lookupAL (enumPairs 0 binders).reverse k)
        ((lookupAL env.parameter_map.reverse k).map (· + binders.length)) := by
  show lookupAL (collectAL _) k = _
  rw [lookupAL_collectAL, List.reverse_append, lookupAL_append, ← List.map_reverse,
    lookupAL_map_shift]

/-! ### C8: parameters shadow globals in `Env::lookup` -/

/-- C8: for every environment and name, `Env::lookup` consults the bound type
parameters before the global name-to-id map — a type parameter named like a
global resolves to the parameter and its index; if the parameter map misses,
a global match yields the global's id; if both miss, lookup fails with the
unresolved-name error. -/
theorem c8_lookup_shadows_globals (env : Env) (name : Identifier) :
    (∀ k, lookupAL env.parameter_map (ir.ParameterKind.ty name) = some k →
      env.lookup name = .ok (.parameter k)) ∧
    (lookupAL env.parameter_map (ir.ParameterKind.ty name) = none →
      (∀ id, lookupAL env.type_ids name = some id →
        env.lookup name = .ok (.type id)) ∧
      (lookupAL env.type_ids name = none →
        env.lookup name = .error (.invalidTypeName name))) := by
  refine ⟨fun k hk => ?_, fun hn => ⟨fun id hid => ?_, fun hnone => ?_⟩⟩
  · rw [Env.lookup, hk]
  · rw [Env.lookup, hn, hid]
  · rw [Env.lookup, hn, hnone]

/-- C8 witness: in `c8envP` the parameter `T` (index 7) shadows the global
`T`; in `c8envG` the global `S` resolves; in the empty environment lookup
fails with `InvalidTypeName`. -/
theorem c8_witness :
    c8envP.lookup "T" = .ok (.parameter 7) ∧
    c8envG.lookup "S" = .ok (.type ⟨4⟩) ∧
    c8envN.lookup "X" = .error (.invalidTypeName "X") :=
  ⟨(c8_lookup_shadows_globals c8envP "T").1 7 rfl,
   ((c8_lookup_shadows_globals c8envG "S").2 rfl).1 ⟨4⟩ rfl,
   ((c8_lookup_shadows_globals c8envN "X").2 rfl).2 rfl⟩

/-! ### C9: a bound parameter cannot head a trait-ref or an application -/

/-- C9: whenever a name resolves to a bound parameter (the parameter map binds
it, which by C8 shadows any global), using it as a trait-ref's trait is the
`NotTrait` error, applying it to any argument list is the
`CannotApplyTypeParameter` error, and using it as a bare type lowers to the
variable with the parameter's index. -/
theorem c9_parameter_misuse (env : Env) (name : Identifier) (idx : Nat)
    (args : List ast.Parameter)
    (h : lookupAL env.parameter_map (ir.ParameterKind.ty name) = some idx) :
    lowerTraitRef env (.mk name args) = .error (.notTrait name) ∧
    lowerTy env (.apply name args) = .error (.cannotApplyTypeParameter name) ∧
    lowerTy env (.id name) = .ok (.var idx) := by
  have hlook : env.lookup name = .ok (.parameter idx) := by
    rw [Env.lookup, h]
  refine ⟨?_, ?_, ?_⟩
  · rw [lowerTraitRef, hlook]
  · rw [lowerTy, hlook]
  · rw [lowerTy, hlook]

/-- C9 witness: in `c9env` the parameter `T` (index 2, shadowing the global
struct `T`) cannot head a trait-ref or an application but lowers to `Var(2)`
as a bare type. -/
theorem c9_witness :
    lowerTraitRef c9env (.mk "T" []) = .error (.notTrait "T") ∧
    lowerTy c9env (.apply "T" []) = .error (.cannotApplyTypeParameter "T") ∧
    lowerTy c9env (.id "T") = .ok (.var 2) :=
  c9_parameter_misuse c9env "T" 2 [] rfl

/-! ### C7: exact-arity checking for global type constructors -/

/-- C7: for a name resolving to a global constructor with declared parameter
kinds `k.parameter_kinds`, a bare use succeeds exactly when zero parameters
are declared and otherwise is the arity error carrying (declared, 0); an
application to `args` with any count other than the declared count is the
arity error carrying (declared, supplied); and with the exact count the
result is exactly the traversal of the lowered arguments (so the application
itself never raises the arity error — any failure comes from an argument). -/
theorem c7_arity (env : Env) (name : Identifier) (id : ir.ItemId) (k : ir.TypeKind)
    (args : List ast.Parameter)
    (hlook : env.lookup name = .ok (.type id))
    (hkind : env.type_kind id = some k) :
    (k.parameter_kinds.length = 0 →
      lowerTy env (.id name) = .ok (.apply (.itemId id) [])) ∧
    (k.parameter_kinds.length ≠ 0 →
      lowerTy env (.id name) =
        .error (.incorrectNumberOfTypeParameters name k.parameter_kinds.length 0)) ∧
    (args.length ≠ k.parameter_kinds.length →
      lowerTy env (.apply name args) =
        .error (.incorrectNumberOfTypeParameters name k.parameter_kinds.length args.length)) ∧
    (args.length = k.parameter_kinds.length →
      lowerTy env (.apply name args) =
        (lowerArgs env args).map (fun ps => .apply (.itemId id) ps)) := by
  refine ⟨fun h0 => ?_, fun hn => ?_, fun hne => ?_, fun heq => ?_⟩
  · rw [lowerTy, hlook]
    show (match env.type_kind id with
      | none => _
      | some k => _) = _
    rw [hkind]
    simp [h0]
  · rw [lowerTy, hlook]
    show (match env.type_kind id with
      | none => _
      | some k => _) = _
    rw [hkind]
    simp [Nat.pos_of_ne_zero hn]
  · rw [lowerTy, hlook]
    show (match env.type_kind id with
      | none => _
      | some k => _) = _
    rw [hkind]
    have hc : k.parameter_kinds.length ≠ args.length := fun e => hne (Eq.symm e)
    simp only [if_pos hc]
  · rw [lowerTy, hlook]
    show (match env.type_kind id with
      | none => _
      | some k => _) = _
    rw [hkind]
    simp [heq]
    cases lowerArgs env args <;> rfl

/-- C7 witness: with `Foo` a global declaring one parameter and `B` one
declaring zero, the bare use of `Foo` and the application to zero arguments
both fail with the arity error carrying expected 1, while the application to
exactly one argument succeeds. -/
theorem c7_witness :
    lowerTy c7envB (.id "Foo") = .error (.incorrectNumberOfTypeParameters "Foo" 1 0) ∧
    lowerTy c7envB (.apply "Foo" []) =
      .error (.incorrectNumberOfTypeParameters "Foo" 1 0) ∧
    lowerTy c7envB (.apply "Foo" [.ty (.id "B")]) =
      .ok (.apply (.itemId ⟨0⟩) [.ty (.apply (.itemId ⟨1⟩) [])]) :=
  ⟨(c7_arity c7envB "Foo" ⟨0⟩ ⟨.struct, "Foo", [.ty "T"]⟩ [] rfl rfl).2.1 (by decide),
   (c7_arity c7envB "Foo" ⟨0⟩ ⟨.struct, "Foo", [.ty "T"]⟩ [] rfl rfl).2.2.1 (by decide),
   by
    have h := (c7_arity c7envB "Foo" ⟨0⟩ ⟨.struct, "Foo", [.ty "T"]⟩
      [.ty (.id "B")] rfl rfl).2.2.2 (by decide)
    rw [h]
    rfl⟩

/-! ### C3: index shifting in `Env::introduce` -/

/-- C3 counterexample: the claim "`p` bound at index `i` is found at index
`i+n` after `introduce([k1,...,kn])`, and each new binder `kj` is found at
index `j-1`" fails when a key collides.  In `c3env` the parameter `T` is
bound at index 0; after `introduce([Ty T, Ty T])` the key `T` is found at
index 1 — not at `0 + 2` as claimed for the pre-existing parameter, and not
at `0` as claimed for the first new binder (the map insert overwrites). -/
theorem c3_counterexample :
    lookupAL c3env.parameter_map (ir.ParameterKind.ty "T") = some 0 ∧
    lookupAL (c3env.introduce [.ty "T", .ty "T"]).parameter_map
      (ir.ParameterKind.ty "T") = some 1 ∧
    some 1 ≠ some (0 + 2) ∧ (some 1 ≠ some 0) := by
  refine ⟨rfl, rfl, by decide, by decide⟩

/-- C3 (amended): provided the new binders are pairwise distinct and the
pre-existing parameter's key is not among them (otherwise the `HashMap`
insert overwrites, i.e. the inner binder shadows), `introduce` finds the
pre-existing parameter at index `i + n` and the `j`-th new binder (0-based)
at index `j`. -/
theorem c3_introduce_shift (env : Env) (binders : List (ir.ParameterKind Identifier))
    (p : ir.ParameterKind Identifier) (i : Nat)
    (hmap : (env.parameter_map.map Prod.fst).Nodup)
    (hbind : binders.Nodup)
    (hp : p ∉ binders)
    (hi : lookupAL env.parameter_map p = some i) :
    lookupAL (env.introduce binders).parameter_map p = some (i + binders.length) ∧
    ∀ j (hj : j < binders.length),
      lookupAL (env.introduce binders).parameter_map (binders.get ⟨j, hj⟩) = some j := by
  constructor
  · rw [Env.introduce_lookup]
    have henum : lookupAL (enumPairs 0 binders).reverse p = none := by
      rw [lookupAL_eq_none_iff, List.map_reverse, List.mem_reverse, enumPairs_map_fst]
      exact hp
    rw [henum, optOr_none_left, lookupAL_reverse_of_nodup env.parameter_map p hmap, hi]
    rfl
  · intro j hj
    rw [Env.introduce_lookup]
    have hkeys : ((enumPairs 0 binders).map Prod.fst).Nodup := by
      rw [enumPairs_map_fst]
      exact hbind
    rw [lookupAL_reverse_of_nodup _ _ hkeys,
      lookupAL_enumPairs_get binders 0 j hbind hj]
    simp [optOr]

/-- C3 witness: in `c3wenv` (`P` at 0, lifetime `q` at 1), introducing the
two fresh binders `[Ty U, Lifetime v]` moves `P` to index `0 + 2 = 2` and
finds the new binders at indices 0 and 1. -/
theorem c3_witness :
    lookupAL (c3wenv.introduce [.ty "U", .lifetime "v"]).parameter_map
      (ir.ParameterKind.ty "P") = some (0 + 2) ∧
    lookupAL (c3wenv.introduce [.ty "U", .lifetime "v"]).parameter_map
      (ir.ParameterKind.ty "U") = some 0 ∧
    lookupAL (c3wenv.introduce [.ty "U", .lifetime "v"]).parameter_map
      (ir.ParameterKind.lifetime "v") = some 1 := by
  have h := c3_introduce_shift c3wenv [.ty "U", .lifetime "v"] (.ty "P") 0
    (by decide) (by decide) (by decide) rfl
  exact ⟨h.1, h.2 0 (by decide), h.2 1 (by decide)⟩

/-! ### C1: trait-ref arity is NOT checked at lowering time -/

/-- C1 counterexample: in `c1prog` the impl's target trait-ref supplies zero
parameters to trait `Foo`, whose declared parameter count is 1 (plus the
synthetic `Self`), yet lowering the whole program succeeds and stores the
mismatched `TraitRef` — the claim that such a lowering fails with an
arity/kind error is false. -/
theorem c1_counterexample :
    lowerProgram c1prog = .ok c1expected ∧
    (lookupAL c1expected.impl_data ⟨1⟩).map (fun d => d.trait_ref.parameters.length)
      = some 0 ∧
    (lookupAL c1expected.type_kinds ⟨0⟩).map (fun k => k.parameter_kinds.length)
      = some 1 :=
  ⟨rfl, rfl, rfl⟩

/-- C1 (amended): `LowerTraitRef` checks only that the name resolves and that
it names a trait; it performs no arity or kind check of the supplied
parameter list against the trait's declaration — whenever the arguments
themselves lower, the `TraitRef` is produced with the supplied parameters
as-is, whatever their number or kinds, leaving any mismatch to the solver. -/
theorem c1_traitref_no_arity_check (env : Env) (name : Identifier)
    (args : List ast.Parameter) (id : ir.ItemId) (k : ir.TypeKind)
    (ps : List ir.Parameter)
    (hlook : env.lookup name = .ok (.type id))
    (hkind : env.type_kind id = some k)
    (hsort : k.sort = .trait)
    (hargs : lowerArgs env args = .ok ps) :
    lowerTraitRef env (.mk name args) = .ok ⟨id, ps⟩ := by
  rw [lowerTraitRef, hlook]
  show (match env.type_kind id with
    | none => _
    | some k => _) = _
  rw [hkind]
  simp [hsort, hargs]

/-- C1 witness for the amended claim: in `c1env` (where `Foo` is a trait
declaring one parameter) the trait-ref `Foo` with an empty argument list
lowers successfully to a `TraitRef` with zero parameters. -/
theorem c1_witness :
    lowerTraitRef c1env (.mk "Foo" []) = .ok ⟨⟨0⟩, []⟩ :=
  c1_traitref_no_arity_check c1env "Foo" [] ⟨0⟩ ⟨.trait, "Foo", [.ty "T"]⟩ []
    rfl rfl rfl rfl

/-! ### C4: declared parameters first, synthetic `Self` last -/

/-- C4: whatever the declared type and lifetime parameters, a successfully
lowered `TraitData`'s parameter list is the declared parameters in source
order followed by the synthetic `Self` type parameter last, while the
trait's `TypeKind` parameter list is exactly the declared parameters
(no `Self`). -/
theorem c4_self_last (env : Env) (d : ast.TraitDefn) (td : ir.TraitData)
    (h : lowerTrait env d = .ok td) :
    td.parameter_kinds = d.parameter_kinds.map lowerPK ++ [.ty SELF] ∧
    lowerTypeKindTrait d = .ok ⟨.trait, d.name, d.parameter_kinds.map lowerPK⟩ := by
  refine ⟨?_, rfl⟩
  rw [lowerTrait] at h
  cases hw : lowerWhereClauses env d.where_clauses with
  | error e =>
    rw [hw] at h
    exact absurd h (by simp)
  | ok wcs =>
    rw [hw] at h
    have : td = ⟨d.allParameters, wcs⟩ := by
      cases h
      rfl
    rw [this]
    rfl

/-- C4 witness: lowering `trait Foo<T> { }` in the empty environment yields
`TraitData` with parameters `[T, Self]` and `TypeKind` with parameters `[T]`. -/
theorem c4_witness :
    ([ir.ParameterKind.ty "T", ir.ParameterKind.ty SELF] : List _)
      = [ast.ParameterKind.ty "T"].map lowerPK ++ [.ty SELF] ∧
    lowerTypeKindTrait c4defn = .ok ⟨.trait, "Foo", [.ty "T"]⟩ := by
  have h := c4_self_last c4env c4defn ⟨[.ty "T", .ty SELF], []⟩ rfl
  exact ⟨h.1, h.2⟩

/-! ### C6: quantified goals lower to a right-nested single-parameter chain -/

/-- C6: lowering a quantified goal over `[p1, ..., pn]` peels one parameter
at a time —  the result is the lowering of the body under the environment
extended one parameter at a time, wrapped in a right-nested chain of `n`
single-parameter `Quantified` nodes, outermost `p1`, innermost `pn` (the kind
of each node matching the corresponding parameter); for `n = 0` it is exactly
the lowering of the body under the unchanged environment, with no
`Quantified` node (and an error in the body propagates unwrapped). -/
theorem c6_quantifier_chain (qk : ir.QuantifierKind) (pks : List ast.ParameterKind)
    (env : Env) (g : ast.Goal) :
    lowerQuantified env qk pks g =
      (lowerGoal (introduceEach env pks) g).map (wrapChain qk pks) := by
  induction pks generalizing env with
  | nil =>
    rw [lowerQuantified]
    show lowerGoal env g = (lowerGoal env g).map (wrapChain qk [])
    cases h : lowerGoal env g <;> rfl
  | cons pk rest ih =>
    rw [lowerQuantified]
    show (match lowerQuantified (env.introduce [lowerPK pk]) qk rest g with
      | Except.error e => Except.error e
      | Except.ok subgoal =>
        Except.ok (ir.Goal.quantified qk (erasePK pk) subgoal)) = _
    rw [ih]
    have henv : introduceEach env (pk :: rest) =
        introduceEach (env.introduce [lowerPK pk]) rest := rfl
    rw [henv]
    cases h : lowerGoal (introduceEach (env.introduce [lowerPK pk]) rest) g <;> rfl

/-! ### C5: id allocation — count, distinctness, exact order -/

theorem totalAssoc_cons (x : ast.Item) (xs : List ast.Item) :
    totalAssoc (x :: xs) = assocCount x + totalAssoc xs := by
  simp [totalAssoc]

theorem assocNamePairs_map_snd (iid : ir.ItemId) (names : List Identifier) (c : Nat) :
    (assocNamePairs iid names c).map Prod.snd =
      (List.range' c names.length).map ir.ItemId.mk := by
  induction names generalizing c with
  | nil => rfl
  | cons nm ns ih =>
    show (⟨c⟩ : ir.ItemId) :: (assocNamePairs iid ns (c + 1)).map Prod.snd =
      (List.range' c (ns.length + 1)).map ir.ItemId.mk
    rw [show List.range' c (ns.length + 1) = c :: List.range' (c + 1) ns.length from rfl]
    rw [List.map_cons, ih]

theorem assocAllocPairs_map_snd (pairs : List (ast.Item × ir.ItemId)) (c : Nat) :
    (assocAllocPairs pairs c).map Prod.snd =
      (List.range' c (totalAssoc (pairs.map Prod.fst))).map ir.ItemId.mk := by
  induction pairs generalizing c with
  | nil => rfl
  | cons p rest ih =>
    obtain ⟨item, iid⟩ := p
    cases item with
    | traitDefn d =>
      show ((assocNamePairs iid d.assoc_ty_names c ++
        assocAllocPairs rest (c + d.assoc_ty_names.length)).map Prod.snd) = _
      rw [List.map_append, assocNamePairs_map_snd, ih, ← List.map_append]
      rw [List.map_cons, totalAssoc_cons]
      congr 1
      rw [List.range'_append_1 c d.assoc_ty_names.length
        (totalAssoc (rest.map Prod.fst))]
      rw [Nat.add_comm (totalAssoc (rest.map Prod.fst)) d.assoc_ty_names.length]
      rfl
    | structDefn d =>
      show (assocAllocPairs rest c).map Prod.snd = _
      rw [ih, List.map_cons, totalAssoc_cons]
      simp [assocCount]
    | impl d =>
      show (assocAllocPairs rest c).map Prod.snd = _
      rw [ih, List.map_cons, totalAssoc_cons]
      simp [assocCount]

/-- C5: the `ItemId`s allocated while lowering a program are, in allocation
order, exactly `0, 1, ..., n + t - 1` where `n` is the number of top-level
items and `t` the total number of associated-type names across all traits:
one id per top-level declaration by position, then one id per associated-type
name (traits in declaration order, names in declaration order within each
trait, as recorded by `assocAllocPairs`).  Hence they are pairwise distinct,
their count is exactly `n + t`, and allocation (a total function) never
fails. -/
theorem c5_id_allocation (prog : ast.Program) :
    allocatedIds prog =
      (List.range (prog.items.length + totalAssoc prog.items)).map ir.ItemId.mk ∧
    (allocatedIds prog).Nodup ∧
    (allocatedIds prog).length = prog.items.length + totalAssoc prog.items := by
  have hfst : (prog.items.zip
      ((List.range prog.items.length).map ir.ItemId.mk)).map Prod.fst = prog.items :=
    List.map_fst_zip _ _ (by simp)
  have hinj : Function.Injective ir.ItemId.mk := fun a b h => congrArg ir.ItemId.index h
  have hmain : allocatedIds prog =
      (List.range (prog.items.length + totalAssoc prog.items)).map ir.ItemId.mk := by
    rw [allocatedIds, assocAllocPairs_map_snd, hfst, ← List.map_append]
    congr 1
    rw [List.range_eq_range', List.range_eq_range']
    have h := List.range'_append_1 0 prog.items.length (totalAssoc prog.items)
    rw [Nat.zero_add] at h
    rw [h, Nat.add_comm]
  refine ⟨hmain, ?_, ?_⟩
  · rw [hmain]
    exact (List.nodup_range _).map hinj
  · rw [hmain]
    simp

/-! ### C2: the synthesized `AssociatedTyData` -/

/-- Provenance of `lowerAssocTys`: every entry of the output map was already
in the input map or is one of the freshly synthesized data, whose fields are
fully determined by the owning trait's id and lowered `TraitData`. -/
theorem lowerAssocTys_provenance (iid : ir.ItemId) (tdata : ir.TraitData)
    (atids : AssociatedTyIds) :
    ∀ (names : List Identifier) (ad ad' : List (ir.ItemId × ir.AssociatedTyData)),
    lowerAssocTys iid tdata atids names ad = .ok ad' →
    ∀ e ∈ ad', e ∈ ad ∨
      (e.2.trait_id = iid ∧ e.2.parameter_kinds = tdata.parameter_kinds ∧
        e.2.where_clauses =
          [.implemented ⟨iid, varsFor 0 tdata.parameter_kinds⟩]) := by
  intro names
  induction names with
  | nil =>
    intro ad ad' h e he
    rw [lowerAssocTys] at h
    cases h
    exact Or.inl he
  | cons name rest ih =>
    intro ad ad' h e he
    rw [lowerAssocTys] at h
    cases hl : lookupAL atids (iid, name) with
    | none =>
      rw [hl] at h
      exact absurd h (by simp)
    | some aid =>
      rw [hl] at h
      have := ih _ _ h e he
      cases this with
      | inr hnew => exact Or.inr hnew
      | inl hmem =>
        rw [insertAL] at hmem
        rcases List.mem_append.1 hmem with hf | hs
        · exact Or.inl (List.mem_filter.1 hf).1
        · have : e = (aid, ⟨iid, name, tdata.parameter_kinds,
            [.implemented ⟨iid, varsFor 0 tdata.parameter_kinds⟩]⟩) :=
            List.mem_singleton.1 hs
          rw [this]
          exact Or.inr ⟨rfl, rfl, rfl⟩

/-- The invariant carried through the per-item loop: every associated-type
datum present in the accumulator has, in the current `trait_data` map, an
owning trait whose parameter list it copies, a singleton `Implemented`
where-clause over fresh variables, and an owning trait id not among the ids
still to be processed. -/
theorem lowerItemsLoop_assoc_inv (tids : TypeIds) (tks : TypeKinds)
    (atids : AssociatedTyIds) :
    ∀ (pairs : List (ast.Item × ir.ItemId))
      (td tdF : List (ir.ItemId × ir.TraitData))
      (im imF : List (ir.ItemId × ir.ImplData))
      (ad adF : List (ir.ItemId × ir.AssociatedTyData)),
    (pairs.map Prod.snd).Nodup →
    lowerItemsLoop tids tks atids pairs td im ad = .ok (tdF, imF, adF) →
    (∀ e ∈ ad,
      ((lookupAL td e.2.trait_id).map (·.parameter_kinds) = some e.2.parameter_kinds ∧
        e.2.where_clauses =
          [.implemented ⟨e.2.trait_id, varsFor 0 e.2.parameter_kinds⟩]) ∧
      e.2.trait_id ∉ pairs.map Prod.snd) →
    ∀ e ∈ adF,
      (lookupAL tdF e.2.trait_id).map (·.parameter_kinds) = some e.2.parameter_kinds ∧
      e.2.where_clauses =
        [.implemented ⟨e.2.trait_id, varsFor 0 e.2.parameter_kinds⟩] := by
  intro pairs
  induction pairs with
  | nil =>
    intro td tdF im imF ad adF _ h hinv e he
    rw [lowerItemsLoop.eq_def] at h
    cases h
    exact (hinv e he).1
  | cons p rest ih =>
    obtain ⟨item, iid⟩ := p
    intro td tdF im imF ad adF hnodup h hinv e he
    rw [List.map_cons, List.nodup_cons] at hnodup
    rw [lowerItemsLoop.eq_def] at h
    dsimp only at h
    cases item with
    | structDefn d =>
      dsimp only at h
      refine ih td tdF im imF ad adF hnodup.2 h (fun e' he' => ?_) e he
      have := hinv e' he'
      exact ⟨this.1, fun hm => this.2 (List.mem_cons_of_mem _ hm)⟩
    | traitDefn d =>
      dsimp only at h
      cases ht : lowerTrait ⟨tids, tks, atids, (ast.Item.traitDefn d).parameterMap⟩ d with
      | error e' =>
        rw [ht] at h
        exact absurd h (by simp)
      | ok tdata =>
        rw [ht] at h
        dsimp only at h
        cases ha : lowerAssocTys iid tdata atids d.assoc_ty_names ad with
        | error e' =>
          rw [ha] at h
          exact absurd h (by simp)
        | ok ad' =>
          rw [ha] at h
          dsimp only at h
          refine ih (insertAL td iid tdata) tdF im imF ad' adF hnodup.2 h
            (fun e' he' => ?_) e he
          cases lowerAssocTys_provenance iid tdata atids d.assoc_ty_names ad ad'
              ha e' he' with
          | inl hold =>
            have hi := hinv e' hold
            have hne : e'.2.trait_id ≠ iid :=
              fun hq => hi.2 (by rw [← hq] at *; exact List.mem_cons_self _ _)
            constructor
            · rw [lookupAL_insertAL, if_neg hne]
              exact ⟨hi.1.1, hi.1.2⟩
            · exact fun hm => hi.2 (List.mem_cons_of_mem _ hm)
          | inr hnew =>
            obtain ⟨h1, h2, h3⟩ := hnew
            constructor
            · rw [h1, h2, h3]
              rw [lookupAL_insertAL, if_pos rfl]
              exact ⟨rfl, rfl⟩
            · rw [h1]
              exact hnodup.1
    | impl d =>
      dsimp only at h
      cases hi : lowerImpl ⟨tids, tks, atids, (ast.Item.impl d).parameterMap⟩ d with
      | error e' =>
        rw [hi] at h
        exact absurd h (by simp)
      | ok idata =>
        rw [hi] at h
        dsimp only at h
        refine ih td tdF (insertAL im iid idata) imF ad adF hnodup.2 h
          (fun e' he' => ?_) e he
        have := hinv e' he'
        exact ⟨this.1, fun hm => this.2 (List.mem_cons_of_mem _ hm)⟩

/-- C2: in any successfully lowered program, every stored `AssociatedTyData`
names an owning trait present in `trait_data` whose full (lowered) parameter
list it copies structurally, and carries exactly one where-clause: the
owning trait applied to the variables `Var(0), ..., Var(n)` — parameter `i`
becoming the type or lifetime variable of index `i` according to its kind
(`varsFor`). -/
theorem c2_assoc_ty_data (prog : ast.Program) (p : ir.Program)
    (h : lowerProgram prog = .ok p) :
    ∀ e ∈ p.associated_ty_data,
      (lookupAL p.trait_data e.2.trait_id).map (·.parameter_kinds)
        = some e.2.parameter_kinds ∧
      e.2.where_clauses =
        [.implemented ⟨e.2.trait_id, varsFor 0 e.2.parameter_kinds⟩] := by
  rw [lowerProgram.eq_def] at h
  dsimp only at h
  cases htk : typeKindsLoop
      (prog.items.zip ((List.range prog.items.length).map ir.ItemId.mk)) [] [] with
  | error e' =>
    rw [htk] at h
    exact absurd h (by simp)
  | ok tk =>
    obtain ⟨tids, tks⟩ := tk
    rw [htk] at h
    dsimp only at h
    cases hloop : lowerItemsLoop tids tks
        (collectAL (assocAllocPairs
          (prog.items.zip ((List.range prog.items.length).map ir.ItemId.mk))
          prog.items.length))
        (prog.items.zip ((List.range prog.items.length).map ir.ItemId.mk)) [] [] [] with
    | error e' =>
      rw [hloop] at h
      exact absurd h (by simp)
    | ok out =>
      obtain ⟨td, im, ad⟩ := out
      rw [hloop] at h
      dsimp only at h
      cases h
      have hids : ((prog.items.zip
          ((List.range prog.items.length).map ir.ItemId.mk)).map Prod.snd).Nodup := by
        rw [List.map_snd_zip _ _ (by simp)]
        exact (List.nodup_range _).map (fun a b hab => congrArg ir.ItemId.index hab)
      exact lowerItemsLoop_assoc_inv tids tks _ _ [] td [] im [] ad hids hloop
        (fun e he => absurd he (List.not_mem_nil e))

/-- C2 witness: in the lowering of `trait Bar<T> { type Assoc; }` the single
`AssociatedTyData` copies the trait's parameter list `[T, Self]` and has
exactly the where-clause `Implemented(Bar(Var(0), Var(1)))`. -/
theorem c2_witness :
    (lookupAL c2expected.trait_data (⟨0⟩ : ir.ItemId)).map (·.parameter_kinds)
      = some [.ty "T", .ty SELF] ∧
    [ir.WhereClause.implemented ⟨⟨0⟩, [.ty (.var 0), .ty (.var 1)]⟩] =
      [.implemented ⟨⟨0⟩, varsFor 0 [.ty "T", .ty SELF]⟩] :=
  c2_assoc_ty_data c2prog c2expected rfl
    (⟨1⟩, ⟨⟨0⟩, "Assoc", [.ty "T", .ty SELF],
      [.implemented ⟨⟨0⟩, [.ty (.var 0), .ty (.var 1)]⟩]⟩)
    (List.mem_singleton.mpr rfl)

/-! ### C10: struct where-clauses never influence the lowered program -/

theorem assocAllocPairs_congr {as bs : List ast.Item}
    (hf : List.Forall₂ structWcEquiv as bs) :
    ∀ (ids : List ir.ItemId) (c : Nat),
    assocAllocPairs (as.zip ids) c = assocAllocPairs (bs.zip ids) c := by
  induction hf with
  | nil => intro ids c; rfl
  | @cons a b as' bs' hr _ ih =>
    intro ids c
    cases ids with
    | nil => rfl
    | cons id ids' =>
      rcases hr with heq | ⟨name, pks, w1, w2, ha, hb⟩
      · subst heq
        cases a with
        | traitDefn d =>
          show assocNamePairs id d.assoc_ty_names c ++
              assocAllocPairs (as'.zip ids') (c + d.assoc_ty_names.length) =
            assocNamePairs id d.assoc_ty_names c ++
              assocAllocPairs (bs'.zip ids') (c + d.assoc_ty_names.length)
          rw [ih]
        | structDefn d =>
          show assocAllocPairs (as'.zip ids') c = assocAllocPairs (bs'.zip ids') c
          rw [ih]
        | impl d =>
          show assocAllocPairs (as'.zip ids') c = assocAllocPairs (bs'.zip ids') c
          rw [ih]
      · subst ha
        subst hb
        show assocAllocPairs (as'.zip ids') c = assocAllocPairs (bs'.zip ids') c
        rw [ih]

theorem typeKindsLoop_congr {as bs : List ast.Item}
    (hf : List.Forall₂ structWcEquiv as bs) :
    ∀ (ids : List ir.ItemId) (tids : TypeIds) (tks : TypeKinds),
    typeKindsLoop (as.zip ids) tids tks = typeKindsLoop (bs.zip ids) tids tks := by
  induction hf with
  | nil => intro ids tids tks; rfl
  | @cons a b as' bs' hr _ ih =>
    intro ids tids tks
    cases ids with
    | nil => rfl
    | cons id ids' =>
      rcases hr with heq | ⟨name, pks, w1, w2, ha, hb⟩
      · subst heq
        cases a with
        | structDefn d =>
          show typeKindsLoop (as'.zip ids')
              (insertAL tids d.name id)
              (insertAL tks id ⟨.struct, d.name, d.parameter_kinds.map lowerPK⟩) =
            typeKindsLoop (bs'.zip ids') _ _
          rw [ih]
        | traitDefn d =>
          show typeKindsLoop (as'.zip ids')
              (insertAL tids d.name id)
              (insertAL tks id ⟨.trait, d.name, d.parameter_kinds.map lowerPK⟩) =
            typeKindsLoop (bs'.zip ids') _ _
          rw [ih]
        | impl d =>
          show typeKindsLoop (as'.zip ids') tids tks = typeKindsLoop (bs'.zip ids') tids tks
          rw [ih]
      · subst ha
        subst hb
        show typeKindsLoop (as'.zip ids')
            (insertAL tids name id)
            (insertAL tks id ⟨.struct, name, pks.map lowerPK⟩) =
          typeKindsLoop (bs'.zip ids') _ _
        rw [ih]

theorem lowerItemsLoop_congr {as bs : List ast.Item}
    (hf : List.Forall₂ structWcEquiv as bs) :
    ∀ (ids : List ir.ItemId) (tids : TypeIds) (tks : TypeKinds)
      (atids : AssociatedTyIds) (td : List (ir.ItemId × ir.TraitData))
      (im : List (ir.ItemId × ir.ImplData))
      (ad : List (ir.ItemId × ir.AssociatedTyData)),
    lowerItemsLoop tids tks atids (as.zip ids) td im ad =
      lowerItemsLoop tids tks atids (bs.zip ids) td im ad := by
  induction hf with
  | nil => intro ids tids tks atids td im ad; rfl
  | @cons a b as' bs' hr _ ih =>
    intro ids tids tks atids td im ad
    cases ids with
    | nil => rfl
    | cons id ids' =>
      rcases hr with heq | ⟨name, pks, w1, w2, ha, hb⟩
      · subst heq
        cases a with
        | structDefn d =>
          show lowerItemsLoop tids tks atids (as'.zip ids') td im ad =
            lowerItemsLoop tids tks atids (bs'.zip ids') td im ad
          rw [ih]
        | traitDefn d =>
          show (match lowerTrait ⟨tids, tks, atids, (ast.Item.traitDefn d).parameterMap⟩ d with
            | Except.error e => Except.error e
            | Except.ok tdata =>
              match lowerAssocTys id tdata atids d.assoc_ty_names ad with
              | Except.error e => Except.error e
              | Except.ok ad' =>
                lowerItemsLoop tids tks atids (as'.zip ids') (insertAL td id tdata) im ad') =
            (match lowerTrait ⟨tids, tks, atids, (ast.Item.traitDefn d).parameterMap⟩ d with
            | Except.error e => Except.error e
            | Except.ok tdata =>
              match lowerAssocTys id tdata atids d.assoc_ty_names ad with
              | Except.error e => Except.error e
              | Except.ok ad' =>
                lowerItemsLoop tids tks atids (bs'.zip ids') (insertAL td id tdata) im ad')
          cases lowerTrait ⟨tids, tks, atids, (ast.Item.traitDefn d).parameterMap⟩ d with
          | error e => rfl
          | ok tdata =>
            dsimp only
            cases lowerAssocTys id tdata atids d.assoc_ty_names ad with
            | error e => rfl
            | ok ad' =>
              dsimp only
              rw [ih]
        | impl d =>
          show (match lowerImpl ⟨tids, tks, atids, (ast.Item.impl d).parameterMap⟩ d with
            | Except.error e => Except.error e
            | Except.ok idata =>
              lowerItemsLoop tids tks atids (as'.zip ids') td (insertAL im id idata) ad) =
            (match lowerImpl ⟨tids, tks, atids, (ast.Item.impl d).parameterMap⟩ d with
            | Except.error e => Except.error e
            | Except.ok idata =>
              lowerItemsLoop tids tks atids (bs'.zip ids') td (insertAL im id idata) ad)
          cases lowerImpl ⟨tids, tks, atids, (ast.Item.impl d).parameterMap⟩ d with
          | error e => rfl
          | ok idata =>
            dsimp only
            rw [ih]
      · subst ha
        subst hb
        show lowerItemsLoop tids tks atids (as'.zip ids') td im ad =
          lowerItemsLoop tids tks atids (bs'.zip ids') td im ad
        rw [ih]

/-- C10: two programs whose item lists agree except for the where-clauses of
struct items (which may even name unresolvable types) lower to identical
`Program`s: a struct's where-clauses are never lowered and contribute nothing
to the output, and the struct arm of the item-lowering pass cannot fail. -/
theorem c10_struct_where_clauses_inert (p q : ast.Program)
    (hf : List.Forall₂ structWcEquiv p.items q.items) :
    lowerProgram p = lowerProgram q := by
  have hlen : p.items.length = q.items.length := hf.length_eq
  rw [lowerProgram.eq_def, lowerProgram.eq_def]
  dsimp only
  rw [← hlen]
  rw [show assocAllocPairs
      (q.items.zip ((List.range p.items.length).map ir.ItemId.mk)) p.items.length =
    assocAllocPairs
      (p.items.zip ((List.range p.items.length).map ir.ItemId.mk)) p.items.length from
    (assocAllocPairs_congr hf _ _).symm]
  rw [show typeKindsLoop
      (q.items.zip ((List.range p.items.length).map ir.ItemId.mk)) [] [] =
    typeKindsLoop
      (p.items.zip ((List.range p.items.length).map ir.ItemId.mk)) [] [] from
    (typeKindsLoop_congr hf _ [] []).symm]
  cases typeKindsLoop
      (p.items.zip ((List.range p.items.length).map ir.ItemId.mk)) [] [] with
  | error e => rfl
  | ok tk =>
    obtain ⟨tids, tks⟩ := tk
    dsimp only
    rw [show lowerItemsLoop tids tks
        (collectAL (assocAllocPairs
          (p.items.zip ((List.range p.items.length).map ir.ItemId.mk))
          p.items.length))
        (q.items.zip ((List.range p.items.length).map ir.ItemId.mk)) [] [] [] =
      lowerItemsLoop tids tks
        (collectAL (assocAllocPairs
          (p.items.zip ((List.range p.items.length).map ir.ItemId.mk))
          p.items.length))
        (p.items.zip ((List.range p.items.length).map ir.ItemId.mk)) [] [] [] from
      (lowerItemsLoop_congr hf _ tids tks _ [] [] []).symm]

/-- C10 witness: adding a where-clause naming the unresolvable trait
`Missing` to `struct S` changes nothing — both programs lower successfully
to the same `Program`. -/
theorem c10_witness :
    lowerProgram c10progA = lowerProgram c10progB ∧
    lowerProgram c10progA =
      .ok ⟨[("S", ⟨0⟩)], [(⟨0⟩, ⟨.struct, "S", []⟩)], [], [], []⟩ :=
  ⟨c10_struct_where_clauses_inert c10progA c10progB
    (List.Forall₂.cons
      (Or.inr ⟨"S", [], [], [.implemented (.mk "Missing" [])], rfl, rfl⟩)
      List.Forall₂.nil),
   rfl⟩
